import Mathlib

/-!
Verification development for the QZSS disaster-warning agent
(`qzssdcragent.py`): a shallow embedding of the agent's
dedup-filter-dispatch pipeline, its keyword matcher, its cache eviction
and its startup configuration validation, together with theorems about
their behaviour.

Python strings are modelled as `List Char`; Python `datetime` values as
`Int` (seconds), so that `timedelta(hours=h)` is `3600 * h`.
-/

namespace QzssDcrAgent

/-- Python strings, modelled as lists of characters. -/
abbrev PyStr := List Char

/-- Coerce a Lean string literal into the `PyStr` model. -/
def pys (s : String) : PyStr := s.data

/-- Python's substring containment `needle in hay` for strings. -/
def isSubstrOf (needle : PyStr) : PyStr → Bool
  | [] => needle.isPrefixOf []
  | c :: t => needle.isPrefixOf (c :: t) || isSubstrOf needle t

/-- Python's `str.strip()`: remove leading and trailing whitespace. -/
def pyStrip (s : PyStr) : PyStr :=
  ((s.dropWhile Char.isWhitespace).reverse.dropWhile Char.isWhitespace).reverse

/-- Python's `str.replace(old, new, 1)`: replace the first occurrence of
`old` (anywhere in the string) by `new`; if `old` does not occur, the
string is unchanged.  As in Python, an empty `old` matches at position 0. -/
def pyReplaceFirst (s old new : PyStr) : PyStr :=
  if old.isPrefixOf s then new ++ s.drop old.length
  else
    match s with
    | [] => []
    | c :: t => c :: pyReplaceFirst t old new

/-- The body of the inner `for value in values` loop of
`check_partial_match`: after it, `found` is true iff the stripped
keyword is a substring of some value. -/
def innerFound (item : PyStr) (values : List PyStr) : Bool :=
  values.any (fun v => isSubstrOf (pyStrip item) v)

/-- The outer `for item in conf_items` loop of `check_partial_match`,
with the running `found` flag threaded through exactly as in the code:
in `confcheck` mode a missing keyword returns `False` at once and a
found keyword resets the flag and continues; in normal mode a found
keyword breaks out (the function then returns `found = true`) and the
loop otherwise continues with the flag unchanged. -/
def cpmLoop (confcheck : Bool) (values : List PyStr) :
    List PyStr → Bool → Bool
  | [], found => if confcheck then true else found
  | item :: rest, found =>
    let found := found || innerFound item values
    if confcheck then
      if found then cpmLoop confcheck values rest false
      else false
    else
      if found then found
      else cpmLoop confcheck values rest found

/-- `check_partial_match(conf_items, values, confcheck)` from
`qzssdcragent.py`: a blank configuration (`conf_items == ['']`) always
matches; otherwise the keyword loop runs with the initial `found` flag
`False`. -/
def check_partial_match (conf_items values : List PyStr)
    (confcheck : Bool) : Bool :=
  if conf_items = [([] : PyStr)] then true
  else cpmLoop confcheck values conf_items false

theorem isSubstrOf_iff (needle hay : PyStr) :
    isSubstrOf needle hay = true ↔ needle <:+: hay := by
  induction hay with
  | nil =>
    simp [isSubstrOf, List.isPrefixOf_iff_prefix]
  | cons c t ih =>
    simp [isSubstrOf, List.isPrefixOf_iff_prefix, ih, List.infix_cons_iff]

theorem cpmLoop_run_eq_any (values : List PyStr) (conf : List PyStr) :
    cpmLoop false values conf false =
      conf.any (fun item => innerFound item values) := by
  induction conf with
  | nil => simp [cpmLoop]
  | cons item rest ih =>
    simp only [cpmLoop, Bool.false_or, List.any_cons]
    by_cases h : innerFound item values = true
    · simp [h]
    · simp only [Bool.not_eq_true] at h
      simp [h, ih]

theorem cpmLoop_conf_eq_all (values : List PyStr) (conf : List PyStr) :
    cpmLoop true values conf false =
      conf.all (fun item => innerFound item values) := by
  induction conf with
  | nil => simp [cpmLoop]
  | cons item rest ih =>
    simp only [cpmLoop, Bool.false_or, List.all_cons]
    by_cases h : innerFound item values = true
    · simp [h, ih]
    · simp only [Bool.not_eq_true] at h
      simp [h]

/-- C1: runtime partial-match has OR semantics: `check_partial_match`
with `confcheck = False` succeeds iff the configured list is exactly
`['']` or some configured keyword, after stripping, is a substring of
some value.  In particular `['Tokyo','Osaka']` against
`['Osaka Prefecture']` matches, and `['']` matches any value list. -/
theorem runtime_partial_match_or_semantics :
    (∀ (conf values : List PyStr),
      check_partial_match conf values false = true ↔
        conf = [([] : PyStr)] ∨
          ∃ item ∈ conf, ∃ v ∈ values, pyStrip item <:+: v) ∧
    check_partial_match [pys "Tokyo", pys "Osaka"]
      [pys "Osaka Prefecture"] false = true ∧
    (∀ values, check_partial_match [([] : PyStr)] values false = true) := by
  refine ⟨?_, ?_, ?_⟩
  · intro conf values
    unfold check_partial_match
    by_cases hb : conf = [([] : PyStr)]
    · simp [hb]
    · simp only [hb, if_false, false_or]
      rw [cpmLoop_run_eq_any]
      simp only [List.any_eq_true, innerFound, isSubstrOf_iff]

  · decide
  · intro values; rfl

/-- C2: validation-mode partial-match has AND semantics:
`check_partial_match` with `confcheck = True` succeeds iff the
configured list is exactly `['']` or every configured keyword, after
stripping, is a substring of some vocabulary entry.  In particular
`['Tokyo','Nonexistent']` against a vocabulary containing "Tokyo" but
not "Nonexistent" fails. -/
theorem validation_partial_match_and_semantics :
    (∀ (conf vocab : List PyStr),
      check_partial_match conf vocab true = true ↔
        conf = [([] : PyStr)] ∨
          ∀ item ∈ conf, ∃ v ∈ vocab, pyStrip item <:+: v) ∧
    check_partial_match [pys "Tokyo", pys "Nonexistent"]
      [pys "Tokyo Metropolis", pys "Osaka"] true = false := by
  constructor
  · intro conf vocab
    unfold check_partial_match
    by_cases hb : conf = [([] : PyStr)]
    · simp [hb]
    · simp only [hb, if_false, false_or]
      rw [cpmLoop_conf_eq_all]
      simp only [List.all_eq_true, innerFound, List.any_eq_true,
        isSubstrOf_iff]
  · decide

/-! ## Data model: categories, messages, configuration, cache -/

/-- The closed set of report classes the agent's `isinstance` chain
distinguishes (`azarashi` report classes). -/
inductive Category
  | AshFall
  | EarthquakeEarlyWarning
  | Flood
  | Hypocenter
  | Marine
  | NankaiTroughEarthquake
  | NorthwestPacificTsunami
  | SeismicIntensity
  | Tsunami
  | Typhoon
  | Volcano
  | Weather
  | JAlert
  | LAlert
  | MTInfo
  | OutsideJapan
  | NullMsg
  | Unknown
  deriving DecidableEq

/-- Python `isinstance(item, QzssDcReportJmaBase)`. -/
def Category.isJmaReport : Category → Bool
  | .AshFall | .EarthquakeEarlyWarning | .Flood | .Hypocenter | .Marine
  | .NankaiTroughEarthquake | .NorthwestPacificTsunami | .SeismicIntensity
  | .Tsunami | .Typhoon | .Volcano | .Weather => true
  | _ => false

/-- Python `isinstance(item, QzssDcXtendedMessageBase)`: the DCX
(extended message) family, which includes the Null and Unknown DCX
messages. -/
def Category.isXtendedMessage : Category → Bool
  | .JAlert | .LAlert | .MTInfo | .OutsideJapan | .NullMsg | .Unknown => true
  | _ => false

/-- Python `item.__class__.__name__` for each report class. -/
def className : Category → PyStr
  | .AshFall => pys "QzssDcReportJmaAshFall"
  | .EarthquakeEarlyWarning => pys "QzssDcReportJmaEarthquakeEarlyWarning"
  | .Flood => pys "QzssDcReportJmaFlood"
  | .Hypocenter => pys "QzssDcReportJmaHypocenter"
  | .Marine => pys "QzssDcReportJmaMarine"
  | .NankaiTroughEarthquake => pys "QzssDcReportJmaNankaiTroughEarthquake"
  | .NorthwestPacificTsunami => pys "QzssDcReportJmaNorthwestPacificTsunami"
  | .SeismicIntensity => pys "QzssDcReportJmaSeismicIntensity"
  | .Tsunami => pys "QzssDcReportJmaTsunami"
  | .Typhoon => pys "QzssDcReportJmaTyphoon"
  | .Volcano => pys "QzssDcReportJmaVolcano"
  | .Weather => pys "QzssDcReportJmaWeather"
  | .JAlert => pys "QzssDcxJAlert"
  | .LAlert => pys "QzssDcxLAlert"
  | .MTInfo => pys "QzssDcxMTInfo"
  | .OutsideJapan => pys "QzssDcxOutsideJapan"
  | .NullMsg => pys "QzssDcxNullMsg"
  | .Unknown => pys "QzssDcxUnknown"

/-- A decoded report object.  `localities` stands for the one
category-specific locality list the filter chain reads
(`local_governments`, `eew_forecast_regions`, `flood_forecast_regions`,
`marine_forecast_regions`, `coastal_regions_en`, `prefectures`,
`tsunami_forecast_regions` or `weather_forecast_regions`); `text` is
`str(item)` and `header` is `item.get_header()` for the JMA report
classes.  Equality is structural, as the dedup comparison `obj == report`
requires. -/
structure Message where
  category : Category
  localities : List PyStr
  reportClassificationNo : Nat
  camfA1 : Nat
  completed : Bool
  timestamp : Option Int
  text : PyStr
  header : PyStr
  deriving DecidableEq

/-- Per-category configuration: the `Use` flag and the comma-split
keyword list (`Regions` / `Prefectures` / `LocalGovernments`). -/
structure CategoryConf where
  use : Bool
  keywords : List PyStr
  deriving DecidableEq

/-- Per-channel suppression options shared by the file, mail and
console sinks. -/
structure ChannelConf where
  reportIncompleteInfo : Bool
  ignoreFilter : Bool
  reportTraining : Bool
  deriving DecidableEq

/-- The fully resolved configuration snapshot the pipeline reads. -/
structure Config where
  ashFall : CategoryConf
  eew : CategoryConf
  flood : CategoryConf
  marine : CategoryConf
  nwPacificTsunami : CategoryConf
  seismicIntensity : CategoryConf
  tsunami : CategoryConf
  volcano : CategoryConf
  weather : CategoryConf
  hypocenterUse : Bool
  nankaiUse : Bool
  typhoonUse : Bool
  jAlertUse : Bool
  lAlertUse : Bool
  mtInfoUse : Bool
  outsideJapanUse : Bool
  cacheValidPeriodHour : Int
  ignoreFilterWhenTraining : Bool
  reportFile : ChannelConf
  stdOutUse : Bool
  stdOut : ChannelConf
  mailUse : Bool
  mail : ChannelConf
  suplessHeaderFromText : Bool
  deriving DecidableEq

/-- A cache entry: the `(datetime.now(), report)` pair appended by
`dcr_report_handler`. -/
structure CacheEntry where
  arrival : Int
  msg : Message
  deriving DecidableEq

abbrev Cache := List CacheEntry

/-- `remove_expired_cache` from `qzssdcragent.py`: pop entries from the
head while the head's arrival time is strictly before
`dtcurrent - timedelta(hours=CacheValidPeriodHour)`; stop at the first
entry at or after that bound. -/
def remove_expired_cache (cfg : Config) (dtcurrent : Int) : Cache → Cache
  | [] => []
  | e :: rest =>
    if e.arrival ≥ dtcurrent - 3600 * cfg.cacheValidPeriodHour then e :: rest
    else remove_expired_cache cfg dtcurrent rest

/-! ## Disposition computation (`process_report`, lines 289-440) -/

/-- The training check at the top of `process_report`: JMA reports are
drills when `report_classification_no == 7`, extended messages when
`camf.a1 == 0`. -/
def training_of (m : Message) : Bool :=
  if m.category.isJmaReport then m.reportClassificationNo == 7
  else if m.category.isXtendedMessage then m.camfA1 == 0
  else false

/-- The shared shape of the keyword-filtered category branches: `Use=0`
filters the message; otherwise it is filtered iff the runtime partial
match against the message's locality list fails. -/
def keyword_filtered (conf : CategoryConf) (locs : List PyStr) : Bool :=
  if !conf.use then true
  else !check_partial_match conf.keywords locs false

/-- The per-class `isinstance` chain of `process_report`, producing the
`(filtered, incomplete)` pair.  Only the Nankai-trough class sets
`incomplete` (when `item.completed` is false), and it does so
independently of its `Use` flag.  The Null and Unknown branches return
early in the source and never reach this computation. -/
def category_check (cfg : Config) (m : Message) : Bool × Bool :=
  match m.category with
  | .AshFall => (keyword_filtered cfg.ashFall m.localities, false)
  | .EarthquakeEarlyWarning => (keyword_filtered cfg.eew m.localities, false)
  | .Flood => (keyword_filtered cfg.flood m.localities, false)
  | .Hypocenter => (!cfg.hypocenterUse, false)
  | .Marine => (keyword_filtered cfg.marine m.localities, false)
  | .NankaiTroughEarthquake => (!cfg.nankaiUse, !m.completed)
  | .NorthwestPacificTsunami =>
      (keyword_filtered cfg.nwPacificTsunami m.localities, false)
  | .SeismicIntensity =>
      (keyword_filtered cfg.seismicIntensity m.localities, false)
  | .Tsunami => (keyword_filtered cfg.tsunami m.localities, false)
  | .Typhoon => (!cfg.typhoonUse, false)
  | .Volcano => (keyword_filtered cfg.volcano m.localities, false)
  | .Weather => (keyword_filtered cfg.weather m.localities, false)
  | .JAlert => (!cfg.jAlertUse, false)
  | .LAlert => (!cfg.lAlertUse, false)
  | .MTInfo => (!cfg.mtInfoUse, false)
  | .OutsideJapan => (!cfg.outsideJapanUse, false)
  | .NullMsg => (false, false)
  | .Unknown => (false, false)

/-- The timestamp used for delivery output: the message's own
`item.timestamp` when present, otherwise the arrival time `dtcurrent`
(lines 426-429). -/
def report_dt (dtcurrent : Int) (m : Message) : Int :=
  m.timestamp.getD dtcurrent

/-- The final `filtered` value passed to all channels: forced to false
for drills when `Input.IgnoreFilterWhenTraining` is set (lines 431-433),
otherwise the value computed by the category chain. -/
def final_filtered (cfg : Config) (m : Message) : Bool :=
  if training_of m && cfg.ignoreFilterWhenTraining then false
  else (category_check cfg m).1

/-- Modelled from the spec: the external `datetime.strftime`
rendering with `DATETIME_FORMAT`, an opaque textual rendering of a
time value, modelled as its decimal rendering. -/
def strftime (t : Int) : PyStr := (toString t).data

/-- A line written by the file or console sink: the timestamped
separator and the message's textual rendering. -/
structure ChannelWrite where
  sep : PyStr
  body : PyStr
  deriving DecidableEq

/-- The separator line written before each report. -/
def sep_line (dt : Int) : PyStr :=
  pys "\n----- " ++ strftime dt ++ pys " --------------------"

/-- `process_report_file`: the file sink's suppression predicate and
output. -/
def process_report_file (cfg : Config) (dt : Int) (m : Message)
    (filtered training incomplete : Bool) : Option ChannelWrite :=
  if incomplete && !cfg.reportFile.reportIncompleteInfo then none
  else if training && !cfg.reportFile.reportTraining then none
  else if filtered && !cfg.reportFile.ignoreFilter then none
  else some ⟨sep_line dt, m.text⟩

/-- `process_stdout`: the console sink's suppression predicate and
output. -/
def process_stdout (cfg : Config) (dt : Int) (m : Message)
    (filtered training incomplete : Bool) : Option ChannelWrite :=
  if !cfg.stdOutUse then none
  else if incomplete && !cfg.stdOut.reportIncompleteInfo then none
  else if training && !cfg.stdOut.reportTraining then none
  else if filtered && !cfg.stdOut.ignoreFilter then none
  else some ⟨sep_line dt, m.text⟩

/-! ## Mail sink (`send_mail`, `process_mail`) -/

/-- The outcome of the SMTP transport interaction attempted inside
`send_mail`'s `try` block. -/
inductive TransportOutcome
  | ok
  | raised (e : PyStr)
  deriving DecidableEq

/-- A log line emitted on the operator-facing logger. -/
inductive LogLine
  | info (s : PyStr)
  | warning (s : PyStr)
  | exc (e : PyStr)
  deriving DecidableEq

/-- Modelled from the spec: the external SMTP transport (connect,
optional TLS/SSL, login, `send_message`, quit) inside `send_mail`'s
`try` block, modelled by its outcome alone: it either succeeds or
raises an exception. -/
def mail_transport (outcome : TransportOutcome) : Except PyStr Unit :=
  match outcome with
  | .ok => Except.ok ()
  | .raised e => Except.error e

/-- `send_mail`: attempt the transport; on success log an info line, on
any exception log it together with a warning line.  The exception is
consumed by the `except` clause, so the function always returns
normally (`Except.ok`). -/
def send_mail (subject text clsname : PyStr) (outcome : TransportOutcome) :
    Except PyStr (List LogLine) :=
  match mail_transport outcome with
  | Except.ok _ =>
      Except.ok [LogLine.info (pys "Mail: " ++ clsname ++ pys " send success.")]
  | Except.error e =>
      Except.ok [LogLine.exc e,
        LogLine.warning (pys "Mail: " ++ clsname ++ pys " send failed.")]

/-- The subject and body handed to `send_mail`. -/
structure MailMessage where
  subject : PyStr
  text : PyStr
  deriving DecidableEq

/-- The reception-time footer appended to every mail body
(line 262). -/
def mail_footer (dt : Int) : PyStr :=
  pys "\n\n情報受信時刻: " ++ strftime dt ++ pys "\n"

/-- The subject/body computation of `process_mail` (lines 237-262):
extended messages get a fixed label (with drill and 災危情報 markers);
JMA reports use the message header as subject and, when
`Mail.SuplessHeaderFromText` is set, remove the first occurrence of the
header from the body; the reception-time footer is appended in every
case. -/
def mail_subject_text (cfg : Config) (dt : Int) (m : Message)
    (training : Bool) : MailMessage :=
  let text := m.text
  if m.category.isXtendedMessage then
    let subject :=
      match m.category with
      | .JAlert => pys "J-Alert"
      | .LAlert => pys "L-Alert"
      | .MTInfo => pys "Municipality-Transmitted Information"
      | .OutsideJapan => pys "Information from Organizations outside Japan"
      | _ => pys "不明なクラス"
    let subject := if training then pys "[訓練/試験]" ++ subject else subject
    ⟨pys "災危情報: " ++ subject, text ++ mail_footer dt⟩
  else if m.category.isJmaReport then
    let subject := m.header
    let text :=
      if cfg.suplessHeaderFromText then pyReplaceFirst text subject []
      else text
    ⟨subject, text ++ mail_footer dt⟩
  else
    ⟨pys "災危情報: 不明なクラス", text ++ mail_footer dt⟩

/-- `process_mail`: the mail sink's suppression predicate, then subject
and body construction, then `send_mail`.  Returns the mail that was
sent together with the transport log, or `none` when suppressed. -/
def process_mail (cfg : Config) (dt : Int) (m : Message)
    (filtered training incomplete : Bool) (outcome : TransportOutcome) :
    Except PyStr (Option (MailMessage × List LogLine)) :=
  if !cfg.mailUse then Except.ok none
  else if incomplete && !cfg.mail.reportIncompleteInfo then Except.ok none
  else if training && !cfg.mail.reportTraining then Except.ok none
  else if filtered && !cfg.mail.ignoreFilter then Except.ok none
  else
    let mm := mail_subject_text cfg dt m training
    match send_mail mm.subject mm.text (className m.category) outcome with
    | Except.ok logs => Except.ok (some (mm, logs))
    | Except.error e => Except.error e

/-! ## `process_report` and `dcr_report_handler` -/

/-- The outcome of `process_report`: a Null message is ignored, an
Unknown message only warned about, and every other message is
dispatched to the three channels with one shared disposition. -/
inductive ProcessResult
  | ignoredNull
  | warnedUnknown
  | dispatched (dt : Int) (filtered training incomplete : Bool)
      (fileOut : Option ChannelWrite)
      (mailOut : Option (MailMessage × List LogLine))
      (stdOut : Option ChannelWrite)
  deriving DecidableEq

/-- The file-sink output of a `process_report` outcome. -/
def ProcessResult.fileOut? : ProcessResult → Option ChannelWrite
  | .dispatched _ _ _ _ fo _ _ => fo
  | _ => none

/-- The console-sink output of a `process_report` outcome. -/
def ProcessResult.stdOut? : ProcessResult → Option ChannelWrite
  | .dispatched _ _ _ _ _ _ so => so
  | _ => none

/-- `process_report` (lines 289-440): compute the training flag, run
the per-class chain for `(filtered, incomplete)` (returning early for
Null and Unknown), pick the output timestamp, apply the training
override, then hand the same disposition to the file, mail and console
sinks in that order.  An exception escaping a sink would propagate to
the caller (`Except.error`). -/
def process_report (cfg : Config) (dtcurrent : Int) (m : Message)
    (outcome : TransportOutcome) : Except PyStr ProcessResult :=
  let training := training_of m
  match m.category with
  | .NullMsg => Except.ok ProcessResult.ignoredNull
  | .Unknown => Except.ok ProcessResult.warnedUnknown
  | _ =>
    let fi := category_check cfg m
    let dt := report_dt dtcurrent m
    let filtered :=
      if training && cfg.ignoreFilterWhenTraining then false else fi.1
    let fileOut := process_report_file cfg dt m filtered training fi.2
    match process_mail cfg dt m filtered training fi.2 outcome with
    | Except.ok mailOut =>
        Except.ok (ProcessResult.dispatched dt filtered training fi.2
          fileOut mailOut (process_stdout cfg dt m filtered training fi.2))
    | Except.error e => Except.error e

/-- The state after one invocation of the decode callback: the mutated
cache and, when the message was new, the `process_report` outcome. -/
structure HandlerResult where
  cache : Cache
  dispatched : Option ProcessResult
  deriving DecidableEq

/-- `dcr_report_handler` (lines 442-458): scan the cache for a
structurally equal message; when absent, append `(now, report)` and run
`process_report`; in either case finish by removing expired entries. -/
def dcr_report_handler (cfg : Config) (cache : Cache) (dtcurrent : Int)
    (m : Message) (outcome : TransportOutcome) :
    Except PyStr HandlerResult :=
  let found := cache.any (fun e => e.msg == m)
  if found then
    Except.ok ⟨remove_expired_cache cfg dtcurrent cache, none⟩
  else
    match process_report cfg dtcurrent m outcome with
    | Except.ok r =>
        Except.ok ⟨remove_expired_cache cfg dtcurrent
          (cache ++ [⟨dtcurrent, m⟩]), some r⟩
    | Except.error e => Except.error e

/-! ## Startup configuration validation (`__main__`, lines 571-643) -/

/-- The nine keyword-list configuration fields validated at startup, in
source order. -/
inductive ConfField
  | ashFallLocalGovernments
  | eewRegions
  | floodRegions
  | marineRegions
  | nwPacificTsunamiRegions
  | seismicIntensityPrefectures
  | tsunamiRegions
  | volcanoLocalGovernments
  | weatherRegions
  deriving DecidableEq

/-- The order in which `__main__` checks the nine fields. -/
def check_order : List ConfField :=
  [ConfField.ashFallLocalGovernments, ConfField.eewRegions,
   ConfField.floodRegions, ConfField.marineRegions,
   ConfField.nwPacificTsunamiRegions, ConfField.seismicIntensityPrefectures,
   ConfField.tsunamiRegions, ConfField.volcanoLocalGovernments,
   ConfField.weatherRegions]

/-- The configured keyword list of each validated field. -/
def field_keywords (cfg : Config) : ConfField → List PyStr
  | .ashFallLocalGovernments => cfg.ashFall.keywords
  | .eewRegions => cfg.eew.keywords
  | .floodRegions => cfg.flood.keywords
  | .marineRegions => cfg.marine.keywords
  | .nwPacificTsunamiRegions => cfg.nwPacificTsunami.keywords
  | .seismicIntensityPrefectures => cfg.seismicIntensity.keywords
  | .tsunamiRegions => cfg.tsunami.keywords
  | .volcanoLocalGovernments => cfg.volcano.keywords
  | .weatherRegions => cfg.weather.keywords

/-- The closed vocabularies of legal values shipped with the external
`azarashi` definitions (`qzss_dcr_jma_*` tables), against which the
configured keyword lists are validated. -/
structure Vocabularies where
  localGovernments : List PyStr
  eewForecastRegions : List PyStr
  floodForecastRegions : List PyStr
  marineForecastRegions : List PyStr
  coastalRegionsEn : List PyStr
  prefectures : List PyStr
  tsunamiForecastRegions : List PyStr
  weatherForecastRegions : List PyStr
  deriving DecidableEq

/-- The vocabulary each validated field is checked against (ash fall
and volcano share the local-government table). -/
def field_vocab (voc : Vocabularies) : ConfField → List PyStr
  | .ashFallLocalGovernments => voc.localGovernments
  | .eewRegions => voc.eewForecastRegions
  | .floodRegions => voc.floodForecastRegions
  | .marineRegions => voc.marineForecastRegions
  | .nwPacificTsunamiRegions => voc.coastalRegionsEn
  | .seismicIntensityPrefectures => voc.prefectures
  | .tsunamiRegions => voc.tsunamiForecastRegions
  | .volcanoLocalGovernments => voc.localGovernments
  | .weatherRegions => voc.weatherForecastRegions

/-- The sequential validation block: every field is checked in order;
a failing field is logged (collected) and sets the `fail` flag, and the
sequence never stops early. -/
def validation_failures (cfg : Config) (voc : Vocabularies) :
    List ConfField × Bool :=
  check_order.foldl
    (fun acc f =>
      if check_partial_match (field_keywords cfg f) (field_vocab voc f) true
      then acc
      else (acc.1 ++ [f], true))
    ([], false)

/-- How startup ends: a fatal exit with a status code (2 for config
validation failure, 4 for the `-t` test-only flag) before the producer
subprocess is spawned, or the transition into the message pipeline. -/
inductive StartupResult
  | exited (code : Nat) (loggedFailures : List ConfField)
  | pipelineStarted
  deriving DecidableEq

/-- The startup decision sequence of `__main__` after the configuration
is read: run the validation block; if any field failed, exit with
status 2 having logged every failing field; otherwise honour the
test-only flag (exit 4) or start the pipeline. -/
def startup_check (cfg : Config) (voc : Vocabularies) (testOnly : Bool) :
    StartupResult :=
  let vr := validation_failures cfg voc
  if vr.2 then StartupResult.exited 2 vr.1
  else if testOnly then StartupResult.exited 4 []
  else StartupResult.pipelineStarted

/-! ## Supporting lemmas -/

theorem remove_expired_cache_eq_dropWhile (cfg : Config) (now : Int)
    (cache : Cache) :
    remove_expired_cache cfg now cache =
      cache.dropWhile
        (fun e => decide (e.arrival < now - 3600 * cfg.cacheValidPeriodHour)) := by
  induction cache with
  | nil => rfl
  | cons e rest ih =>
    by_cases h : e.arrival ≥ now - 3600 * cfg.cacheValidPeriodHour
    · rw [remove_expired_cache, if_pos h,
        List.dropWhile_cons_of_neg (by simpa using not_lt.mpr h)]
    · rw [remove_expired_cache, if_neg h,
        List.dropWhile_cons_of_pos (by simpa using lt_of_not_ge h), ih]

theorem mem_dropWhile_of_neg {α : Type} {p : α → Bool} {a : α} {l : List α}
    (hpa : p a = false) (ha : a ∈ l) : a ∈ l.dropWhile p := by
  have hsplit : l.takeWhile p ++ l.dropWhile p = l :=
    List.takeWhile_append_dropWhile p l
  rw [← hsplit] at ha
  rcases List.mem_append.mp ha with h | h
  · have := List.mem_takeWhile_imp h
    rw [hpa] at this
    exact absurd this (by simp)
  · exact h

theorem dropWhile_lt_eq_filter_ge (k : Int) (l : Cache)
    (h : l.Pairwise (fun a b => a.arrival ≤ b.arrival)) :
    l.dropWhile (fun e => decide (e.arrival < k)) =
      l.filter (fun e => decide (k ≤ e.arrival)) := by
  induction l with
  | nil => rfl
  | cons e rest ih =>
    rcases List.pairwise_cons.mp h with ⟨he, hrest⟩
    by_cases hk : e.arrival < k
    · rw [List.dropWhile_cons_of_pos (by simpa using hk),
        List.filter_cons_of_neg (by simpa using not_le.mpr hk), ih hrest]
    · rw [List.dropWhile_cons_of_neg (by simpa using hk),
        List.filter_cons_of_pos (by simpa using not_lt.mp hk)]
      rw [List.filter_eq_self.mpr]
      intro b hb
      have hba := he b hb
      have hke := not_lt.mp hk
      simp only [decide_eq_true_eq]
      omega

theorem send_mail_ok (subject text clsname : PyStr) (tr : TransportOutcome) :
    ∃ logs, send_mail subject text clsname tr = Except.ok logs := by
  cases tr <;> exact ⟨_, rfl⟩

theorem process_mail_ok (cfg : Config) (dt : Int) (m : Message)
    (filtered training incomplete : Bool) (tr : TransportOutcome) :
    ∃ o, process_mail cfg dt m filtered training incomplete tr =
      Except.ok o := by
  unfold process_mail
  repeat' split
  all_goals first
    | exact ⟨_, rfl⟩
    | (cases tr <;> exact ⟨_, rfl⟩)

theorem process_report_null (cfg : Config) (now : Int) (m : Message)
    (tr : TransportOutcome) (h : m.category = Category.NullMsg) :
    process_report cfg now m tr = Except.ok ProcessResult.ignoredNull := by
  unfold process_report
  rw [h]

theorem process_report_unknown (cfg : Config) (now : Int) (m : Message)
    (tr : TransportOutcome) (h : m.category = Category.Unknown) :
    process_report cfg now m tr = Except.ok ProcessResult.warnedUnknown := by
  unfold process_report
  rw [h]

theorem process_report_spec (cfg : Config) (now : Int) (m : Message)
    (tr : TransportOutcome)
    (h1 : m.category ≠ Category.NullMsg) (h2 : m.category ≠ Category.Unknown) :
    ∃ mo, process_mail cfg (report_dt now m) m (final_filtered cfg m)
        (training_of m) (category_check cfg m).2 tr = Except.ok mo ∧
      process_report cfg now m tr = Except.ok
        (ProcessResult.dispatched (report_dt now m) (final_filtered cfg m)
          (training_of m) (category_check cfg m).2
          (process_report_file cfg (report_dt now m) m (final_filtered cfg m)
            (training_of m) (category_check cfg m).2)
          mo
          (process_stdout cfg (report_dt now m) m (final_filtered cfg m)
            (training_of m) (category_check cfg m).2)) := by
  obtain ⟨mo, hmo⟩ := process_mail_ok cfg (report_dt now m) m
    (final_filtered cfg m) (training_of m) (category_check cfg m).2 tr
  refine ⟨mo, hmo, ?_⟩
  rcases m with ⟨cat, loc, rc, a1, comp, ts, tx, hd⟩
  cases cat <;> first
    | exact absurd rfl h1
    | exact absurd rfl h2
    | (simp only [process_report, final_filtered] at hmo ⊢
       rw [hmo])

theorem process_report_ok (cfg : Config) (now : Int) (m : Message)
    (tr : TransportOutcome) :
    ∃ r, process_report cfg now m tr = Except.ok r := by
  by_cases h1 : m.category = Category.NullMsg
  · exact ⟨_, process_report_null cfg now m tr h1⟩
  by_cases h2 : m.category = Category.Unknown
  · exact ⟨_, process_report_unknown cfg now m tr h2⟩
  obtain ⟨mo, _, hpr⟩ := process_report_spec cfg now m tr h1 h2
  exact ⟨_, hpr⟩

theorem dcr_report_handler_spec (cfg : Config) (cache : Cache) (now : Int)
    (m : Message) (tr : TransportOutcome) :
    (cache.any (fun e => e.msg == m) = true →
      dcr_report_handler cfg cache now m tr =
        Except.ok ⟨remove_expired_cache cfg now cache, none⟩) ∧
    (cache.any (fun e => e.msg == m) = false →
      ∃ r, process_report cfg now m tr = Except.ok r ∧
        dcr_report_handler cfg cache now m tr =
          Except.ok ⟨remove_expired_cache cfg now (cache ++ [⟨now, m⟩]),
            some r⟩) := by
  constructor
  · intro hf
    unfold dcr_report_handler
    rw [hf]
    rfl
  · intro hf
    obtain ⟨r, hr⟩ := process_report_ok cfg now m tr
    refine ⟨r, hr, ?_⟩
    unfold dcr_report_handler
    rw [hf, hr]
    rfl

theorem pyReplaceFirst_of_infix (h : PyStr) (s : PyStr) (hinf : h <:+: s) :
    ∃ pre post, s = pre ++ h ++ post ∧
      pyReplaceFirst s h [] = pre ++ post := by
  induction s with
  | nil =>
    have hn : h = [] := List.infix_nil.mp hinf
    subst hn
    exact ⟨[], [], rfl, rfl⟩
  | cons c t ih =>
    by_cases hp : h.isPrefixOf (c :: t) = true
    · obtain ⟨u, hu⟩ := List.isPrefixOf_iff_prefix.mp hp
      refine ⟨[], u, by simp [← hu], ?_⟩
      rw [pyReplaceFirst, if_pos hp, ← hu, List.drop_left, List.nil_append]
    · have hinf' : h <:+: t := by
        rcases List.infix_cons_iff.mp hinf with hpre | hrest
        · exact absurd (List.isPrefixOf_iff_prefix.mpr hpre) hp
        · exact hrest
      obtain ⟨pre, post, hs, hr⟩ := ih hinf'
      refine ⟨c :: pre, post, by simp [hs], ?_⟩
      rw [pyReplaceFirst, if_neg hp]
      simp [hr]

theorem pyReplaceFirst_of_not_infix (h : PyStr) (s : PyStr)
    (hinf : ¬ h <:+: s) : pyReplaceFirst s h [] = s := by
  induction s with
  | nil =>
    rw [pyReplaceFirst]
    split <;> simp
  | cons c t ih =>
    have hp : ¬ h.isPrefixOf (c :: t) = true := fun hp =>
      hinf (List.isPrefixOf_iff_prefix.mp hp).isInfix
    rw [pyReplaceFirst, if_neg hp,
      ih fun hh => hinf (List.infix_cons_iff.mpr (Or.inr hh))]

theorem validation_foldl_spec (cfg : Config) (voc : Vocabularies)
    (l : List ConfField) (acc : List ConfField) (b : Bool) :
    l.foldl
      (fun acc f =>
        if check_partial_match (field_keywords cfg f) (field_vocab voc f) true
        then acc
        else (acc.1 ++ [f], true)) (acc, b) =
      (acc ++ l.filter (fun f =>
          !check_partial_match (field_keywords cfg f) (field_vocab voc f) true),
       b || l.any (fun f =>
          !check_partial_match (field_keywords cfg f) (field_vocab voc f) true)) := by
  induction l generalizing acc b with
  | nil => simp
  | cons f rest ih =>
    by_cases hcf :
        check_partial_match (field_keywords cfg f) (field_vocab voc f) true
          = true
    · simp [List.foldl_cons, hcf, ih, List.filter_cons, List.any_cons]
    · simp only [Bool.not_eq_true] at hcf
      simp [List.foldl_cons, hcf, ih, List.filter_cons, List.any_cons]

/-! ## Claim theorems: cache behaviour -/

/-- C10: `remove_expired_cache` only ever truncates a contiguous head
prefix of the cache: it is `dropWhile` of the expiry predicate, and in
particular whenever the head entry is within the validity window the
whole cache — including any expired entry positioned after the head —
is returned untouched. -/
theorem eviction_truncates_head_prefix_only :
    (∀ (cfg : Config) (now : Int) (cache : Cache),
      remove_expired_cache cfg now cache =
        cache.dropWhile
          (fun e =>
            decide (e.arrival < now - 3600 * cfg.cacheValidPeriodHour))) ∧
    (∀ (cfg : Config) (now : Int) (e : CacheEntry) (rest : Cache),
      e.arrival ≥ now - 3600 * cfg.cacheValidPeriodHour →
      remove_expired_cache cfg now (e :: rest) = e :: rest) := by
  refine ⟨remove_expired_cache_eq_dropWhile, ?_⟩
  intro cfg now e rest he
  rw [remove_expired_cache, if_pos he]

/-- C4: on a cache sorted by nondecreasing arrival time,
`remove_expired_cache` removes exactly the entries strictly older than
the validity window (an entry aged exactly the window survives) and
keeps the rest in order; and `dcr_report_handler` invokes it after
every insertion attempt, whether or not a new entry was appended. -/
theorem eviction_boundary (cfg : Config) (now : Int) (cache : Cache)
    (hsorted : cache.Pairwise (fun a b => a.arrival ≤ b.arrival)) :
    remove_expired_cache cfg now cache =
      cache.filter
        (fun e => decide (now - e.arrival ≤ 3600 * cfg.cacheValidPeriodHour)) ∧
    ∀ (m : Message) (tr : TransportOutcome) (res : HandlerResult),
      dcr_report_handler cfg cache now m tr = Except.ok res →
      res.cache = remove_expired_cache cfg now
        (if cache.any (fun e => e.msg == m) then cache
         else cache ++ [⟨now, m⟩]) := by
  constructor
  · rw [remove_expired_cache_eq_dropWhile,
      dropWhile_lt_eq_filter_ge (now - 3600 * cfg.cacheValidPeriodHour)
        cache hsorted]
    refine List.filter_congr ?_
    intro e _
    simp only [decide_eq_decide]
    omega
  · intro m tr res hres
    by_cases hf : cache.any (fun e => e.msg == m) = true
    · have := (dcr_report_handler_spec cfg cache now m tr).1 hf
      rw [this] at hres
      cases hres
      rw [if_pos hf]
    · simp only [Bool.not_eq_true] at hf
      obtain ⟨r, _, hh⟩ := (dcr_report_handler_spec cfg cache now m tr).2 hf
      rw [hh] at hres
      cases hres
      rw [hf, if_neg (by simp)]

/-- C3: dedup idempotence of `dcr_report_handler`.  A message already
present (structurally equal) in the cache is neither appended nor
dispatched; a new message is appended once at the tail and dispatched
exactly once; and the same message arriving twice — the second time
within the validity window — yields exactly one dispatch and exactly
one cache entry for it. -/
theorem dedup_idempotence :
    (∀ (cfg : Config) (cache : Cache) (now : Int) (m : Message)
        (tr : TransportOutcome),
      (∃ e ∈ cache, e.msg = m) →
      dcr_report_handler cfg cache now m tr =
        Except.ok ⟨remove_expired_cache cfg now cache, none⟩) ∧
    (∀ (cfg : Config) (cache : Cache) (now : Int) (m : Message)
        (tr : TransportOutcome),
      (∀ e ∈ cache, e.msg ≠ m) →
      ∃ r, process_report cfg now m tr = Except.ok r ∧
        dcr_report_handler cfg cache now m tr =
          Except.ok ⟨remove_expired_cache cfg now (cache ++ [⟨now, m⟩]),
            some r⟩) ∧
    (∀ (cfg : Config) (cache : Cache) (now now2 : Int) (m : Message)
        (tr tr' : TransportOutcome),
      0 ≤ cfg.cacheValidPeriodHour →
      (∀ e ∈ cache, e.msg ≠ m) →
      now2 - now ≤ 3600 * cfg.cacheValidPeriodHour →
      ∃ c1 r,
        dcr_report_handler cfg cache now m tr = Except.ok ⟨c1, some r⟩ ∧
        c1.countP (fun e => e.msg == m) = 1 ∧
        dcr_report_handler cfg c1 now2 m tr' =
          Except.ok ⟨remove_expired_cache cfg now2 c1, none⟩ ∧
        (remove_expired_cache cfg now2 c1).countP
          (fun e => e.msg == m) = 1) := by
  have hfound : ∀ (cache : Cache) (m : Message),
      (∃ e ∈ cache, e.msg = m) →
      cache.any (fun e => e.msg == m) = true := by
    intro cache m ⟨e, he, heq⟩
    exact List.any_eq_true.mpr ⟨e, he, by simpa using heq⟩
  have hnotfound : ∀ (cache : Cache) (m : Message),
      (∀ e ∈ cache, e.msg ≠ m) →
      cache.any (fun e => e.msg == m) = false := by
    intro cache m hno
    rw [List.any_eq_false]
    intro e he
    simpa using hno e he
  refine ⟨?_, ?_, ?_⟩
  · intro cfg cache now m tr hex
    exact (dcr_report_handler_spec cfg cache now m tr).1 (hfound cache m hex)
  · intro cfg cache now m tr hno
    exact (dcr_report_handler_spec cfg cache now m tr).2 (hnotfound cache m hno)
  · intro cfg cache now now2 m tr tr' hw hno hwin
    obtain ⟨r, _, hh⟩ :=
      (dcr_report_handler_spec cfg cache now m tr).2 (hnotfound cache m hno)
    refine ⟨remove_expired_cache cfg now (cache ++ [⟨now, m⟩]), r, hh, ?_⟩
    have hpred : (fun e : CacheEntry =>
        decide (e.arrival < now - 3600 * cfg.cacheValidPeriodHour))
          ⟨now, m⟩ = false := by
      simp only [decide_eq_false_iff_not]
      omega
    have hmem1 : (⟨now, m⟩ : CacheEntry) ∈
        remove_expired_cache cfg now (cache ++ [⟨now, m⟩]) := by
      rw [remove_expired_cache_eq_dropWhile]
      exact mem_dropWhile_of_neg hpred (by simp)
    have hsub1 : (remove_expired_cache cfg now
        (cache ++ [⟨now, m⟩])).Sublist (cache ++ [⟨now, m⟩]) := by
      rw [remove_expired_cache_eq_dropWhile]
      exact List.dropWhile_sublist _
    have hcount0 : cache.countP (fun e => e.msg == m) = 0 := by
      rw [List.countP_eq_zero]
      intro e he
      simpa using hno e he
    have hcountapp :
        (cache ++ [(⟨now, m⟩ : CacheEntry)]).countP
          (fun e => e.msg == m) = 1 := by
      rw [List.countP_append (fun e => e.msg == m) cache [⟨now, m⟩], hcount0]
      simp
    have hcount1 : (remove_expired_cache cfg now
        (cache ++ [⟨now, m⟩])).countP (fun e => e.msg == m) = 1 := by
      have hle := hsub1.countP_le (fun e => e.msg == m)
      rw [hcountapp] at hle
      have hpos : 0 < (remove_expired_cache cfg now
          (cache ++ [⟨now, m⟩])).countP (fun e => e.msg == m) :=
        List.countP_pos_iff.mpr ⟨⟨now, m⟩, hmem1, by simp⟩
      omega
    refine ⟨hcount1, ?_, ?_⟩
    · exact (dcr_report_handler_spec cfg _ now2 m tr').1
        (List.any_eq_true.mpr ⟨⟨now, m⟩, hmem1, by simp⟩)
    · have hpred2 : (fun e : CacheEntry =>
          decide (e.arrival < now2 - 3600 * cfg.cacheValidPeriodHour))
            ⟨now, m⟩ = false := by
        simp only [decide_eq_false_iff_not]
        omega
      have hmem2 : (⟨now, m⟩ : CacheEntry) ∈ remove_expired_cache cfg now2
          (remove_expired_cache cfg now (cache ++ [⟨now, m⟩])) := by
        rw [remove_expired_cache_eq_dropWhile]
        exact mem_dropWhile_of_neg hpred2 hmem1
      have hsub2 : (remove_expired_cache cfg now2
          (remove_expired_cache cfg now (cache ++ [⟨now, m⟩]))).Sublist
            (remove_expired_cache cfg now (cache ++ [⟨now, m⟩])) := by
        rw [remove_expired_cache_eq_dropWhile]
        exact List.dropWhile_sublist _
      have hle := hsub2.countP_le (fun e => e.msg == m)
      rw [hcount1] at hle
      have hpos : 0 < (remove_expired_cache cfg now2
          (remove_expired_cache cfg now (cache ++ [⟨now, m⟩]))).countP
            (fun e => e.msg == m) :=
        List.countP_pos_iff.mpr ⟨⟨now, m⟩, hmem2, by simp⟩
      omega

theorem any_msg_eq_false (cache : Cache) (m : Message)
    (hno : ∀ e ∈ cache, e.msg ≠ m) :
    cache.any (fun e => e.msg == m) = false := by
  rw [List.any_eq_false]
  intro e he
  simpa using hno e he

/-! ## Claim theorems: disposition and channels -/

/-- C5 (amended): a Null-category message is always suppressed —
`process_report` returns `ignoredNull`, so no channel (file, mail,
console) receives any output — but, contrary to the original claim's
final clause, a Null message not yet in the cache is appended to the
dedup cache like any other new message. -/
theorem null_message_suppressed (cfg : Config) (cache : Cache) (now : Int)
    (m : Message) (tr : TransportOutcome)
    (h : m.category = Category.NullMsg) :
    process_report cfg now m tr = Except.ok ProcessResult.ignoredNull ∧
    (∀ res r, dcr_report_handler cfg cache now m tr = Except.ok res →
      res.dispatched = some r →
      r = ProcessResult.ignoredNull ∧
        r.fileOut? = none ∧ r.stdOut? = none) ∧
    ((∀ e ∈ cache, e.msg ≠ m) →
      ∀ res, dcr_report_handler cfg cache now m tr = Except.ok res →
        res.cache = remove_expired_cache cfg now (cache ++ [⟨now, m⟩]) ∧
        res.dispatched = some ProcessResult.ignoredNull) := by
  have hpr := process_report_null cfg now m tr h
  refine ⟨hpr, ?_, ?_⟩
  · intro res r hres hdisp
    by_cases hf : cache.any (fun e => e.msg == m) = true
    · have hh := (dcr_report_handler_spec cfg cache now m tr).1 hf
      rw [hh] at hres
      cases hres
      simp at hdisp
    · simp only [Bool.not_eq_true] at hf
      obtain ⟨r', hr', hh⟩ := (dcr_report_handler_spec cfg cache now m tr).2 hf
      rw [hpr] at hr'
      injection hr' with hr''
      subst hr''
      rw [hh] at hres
      cases hres
      simp only [Option.some.injEq] at hdisp
      subst hdisp
      exact ⟨rfl, rfl, rfl⟩
  · intro hno res hres
    obtain ⟨r', hr', hh⟩ := (dcr_report_handler_spec cfg cache now m tr).2
      (any_msg_eq_false cache m hno)
    rw [hpr] at hr'
    injection hr' with hr''
    subst hr''
    rw [hh] at hres
    cases hres
    exact ⟨rfl, rfl⟩

/-- C6: training override.  For a message that reaches the disposition
computation (neither Null nor Unknown) with the training indicator set,
enabling `Input.IgnoreFilterWhenTraining` forces the final `filtered`
to false — even if the category's `Use` flag is off or its keyword
filter failed — and this forced value is the one handed to the file,
mail and console sinks. -/
theorem training_override (cfg : Config) (now : Int) (m : Message)
    (tr : TransportOutcome)
    (h1 : m.category ≠ Category.NullMsg) (h2 : m.category ≠ Category.Unknown)
    (htr : training_of m = true) (hopt : cfg.ignoreFilterWhenTraining = true) :
    ∃ mo, process_mail cfg (report_dt now m) m false true
        (category_check cfg m).2 tr = Except.ok mo ∧
      process_report cfg now m tr = Except.ok
        (ProcessResult.dispatched (report_dt now m) false true
          (category_check cfg m).2
          (process_report_file cfg (report_dt now m) m false true
            (category_check cfg m).2)
          mo
          (process_stdout cfg (report_dt now m) m false true
            (category_check cfg m).2)) := by
  have hf : final_filtered cfg m = false := by
    rw [final_filtered, htr, hopt]
    simp
  obtain ⟨mo, hmo, hpr⟩ := process_report_spec cfg now m tr h1 h2
  rw [hf, htr] at hmo hpr
  exact ⟨mo, hmo, hpr⟩

theorem jma_not_xtended :
    ∀ c : Category, c.isJmaReport = true → c.isXtendedMessage = false := by
  intro c h
  cases c <;> first | rfl | exact absurd h (by decide)

/-- C7 (amended): for a standard (JMA) category delivered by the mail
sink with `SuplessHeaderFromText` enabled, the body is the message's
textual rendering with the *first occurrence* of the header removed —
wherever it occurs, not only when it is a prefix; a rendering in which
the header does not occur at all is left unchanged — followed by the
appended reception-time line, whose timestamp is the message's embedded
timestamp when present and the arrival wall-clock time otherwise. -/
theorem mail_body_construction :
    (∀ (s h : PyStr), h <:+: s →
      ∃ pre post, s = pre ++ h ++ post ∧
        pyReplaceFirst s h [] = pre ++ post) ∧
    (∀ (s h : PyStr), ¬ h <:+: s → pyReplaceFirst s h [] = s) ∧
    (∀ (cfg : Config) (dt : Int) (m : Message)
        (filtered training incomplete : Bool) (tr : TransportOutcome),
      m.category.isJmaReport = true →
      cfg.suplessHeaderFromText = true →
      cfg.mailUse = true →
      (incomplete && !cfg.mail.reportIncompleteInfo) = false →
      (training && !cfg.mail.reportTraining) = false →
      (filtered && !cfg.mail.ignoreFilter) = false →
      ∃ logs, process_mail cfg dt m filtered training incomplete tr =
        Except.ok (some (⟨m.header,
          pyReplaceFirst m.text m.header [] ++ mail_footer dt⟩, logs))) ∧
    (∀ (cfg : Config) (now : Int) (m : Message) (tr : TransportOutcome)
        (dt : Int) (f t i : Bool) (fo : Option ChannelWrite)
        (mo : Option (MailMessage × List LogLine)) (so : Option ChannelWrite),
      process_report cfg now m tr =
        Except.ok (ProcessResult.dispatched dt f t i fo mo so) →
      dt = report_dt now m) := by
  refine ⟨fun s h => pyReplaceFirst_of_infix h s,
    fun s h => pyReplaceFirst_of_not_infix h s, ?_, ?_⟩
  · intro cfg dt m filtered training incomplete tr hjma hsup huse hic htr hfl
    have hxt := jma_not_xtended m.category hjma
    have hmm : mail_subject_text cfg dt m training =
        ⟨m.header, pyReplaceFirst m.text m.header [] ++ mail_footer dt⟩ := by
      simp [mail_subject_text, hxt, hjma, hsup]
    obtain ⟨logs, hl⟩ := send_mail_ok m.header
      (pyReplaceFirst m.text m.header [] ++ mail_footer dt)
      (className m.category) tr
    refine ⟨logs, ?_⟩
    simp only [process_mail]
    rw [if_neg (by simp [huse]), if_neg (by simp [hic]),
      if_neg (by simp [htr]), if_neg (by simp [hfl]), hmm]
    dsimp only
    rw [hl]
  · intro cfg now m tr dt f t i fo mo so heq
    by_cases h1 : m.category = Category.NullMsg
    · rw [process_report_null cfg now m tr h1] at heq
      injection heq with heq'
      cases heq'
    by_cases h2 : m.category = Category.Unknown
    · rw [process_report_unknown cfg now m tr h2] at heq
      injection heq with heq'
      cases heq'
    obtain ⟨mo', _, hpr⟩ := process_report_spec cfg now m tr h1 h2
    rw [hpr] at heq
    simp only [Except.ok.injEq, ProcessResult.dispatched.injEq] at heq
    exact heq.1.symm

/-- C8: startup configuration validation is fatal and exhaustive.  The
validation block collects exactly the fields whose keyword list fails
validation-mode matching against that field's legal vocabulary — every
field is checked, none is skipped after a failure — and startup then
exits with the distinct status 2 carrying that complete list (without
reaching the pipeline, whatever the test-only flag), while a fully
valid configuration starts the pipeline. -/
theorem startup_validation_fatal_exhaustive (cfg : Config)
    (voc : Vocabularies) :
    validation_failures cfg voc =
      (check_order.filter (fun f =>
        !check_partial_match (field_keywords cfg f) (field_vocab voc f) true),
       check_order.any (fun f =>
        !check_partial_match (field_keywords cfg f) (field_vocab voc f) true)) ∧
    (∀ f, f ∈ (validation_failures cfg voc).1 ↔
      f ∈ check_order ∧
        check_partial_match (field_keywords cfg f) (field_vocab voc f) true
          = false) ∧
    ((validation_failures cfg voc).1 ≠ [] →
      ∀ testOnly, startup_check cfg voc testOnly =
        StartupResult.exited 2 (validation_failures cfg voc).1) ∧
    ((validation_failures cfg voc).1 = [] →
      startup_check cfg voc false = StartupResult.pipelineStarted) := by
  have hval : validation_failures cfg voc =
      (check_order.filter (fun f =>
        !check_partial_match (field_keywords cfg f) (field_vocab voc f) true),
       check_order.any (fun f =>
        !check_partial_match (field_keywords cfg f) (field_vocab voc f)
          true)) := by
    unfold validation_failures
    rw [validation_foldl_spec]
    simp
  refine ⟨hval, ?_, ?_, ?_⟩
  · intro f
    rw [hval]
    simp [List.mem_filter]
  · intro hne testOnly
    have hflag : (validation_failures cfg voc).2 = true := by
      rw [hval] at hne ⊢
      simp only at hne ⊢
      obtain ⟨f, hf⟩ := List.exists_mem_of_ne_nil _ hne
      rcases List.mem_filter.mp hf with ⟨hfo, hpf⟩
      exact List.any_eq_true.mpr ⟨f, hfo, hpf⟩
    simp only [startup_check]
    rw [hflag]
    simp
  · intro hnil
    have hflag : (validation_failures cfg voc).2 = false := by
      rw [hval] at hnil ⊢
      simp only at hnil ⊢
      rw [List.any_eq_false]
      intro f hf hpf
      have hmem : f ∈ check_order.filter (fun f =>
          !check_partial_match (field_keywords cfg f) (field_vocab voc f)
            true) :=
        List.mem_filter.mpr ⟨hf, hpf⟩
      rw [hnil] at hmem
      simp at hmem
    simp only [startup_check]
    rw [hflag]
    simp

/-- C9: mail failure isolation.  Any exception raised by the transport
inside `send_mail` is caught there — `send_mail` always returns
normally, logging a warning on failure — so the transport outcome can
neither crash `process_report` (it always returns normally) nor change
what the file and console sinks receive, and `dcr_report_handler`
always completes on every message. -/
theorem mail_failure_isolation :
    (∀ (subject text clsname : PyStr) (tr : TransportOutcome),
      ∃ logs, send_mail subject text clsname tr = Except.ok logs ∧
        ∀ e, tr = TransportOutcome.raised e →
          LogLine.warning (pys "Mail: " ++ clsname ++ pys " send failed.")
            ∈ logs) ∧
    (∀ (cfg : Config) (now : Int) (m : Message) (tr tr' : TransportOutcome),
      ∃ r r', process_report cfg now m tr = Except.ok r ∧
        process_report cfg now m tr' = Except.ok r' ∧
        r.fileOut? = r'.fileOut? ∧ r.stdOut? = r'.stdOut?) ∧
    (∀ (cfg : Config) (cache : Cache) (now : Int) (m : Message)
        (tr : TransportOutcome),
      ∃ res, dcr_report_handler cfg cache now m tr = Except.ok res) := by
  refine ⟨?_, ?_, ?_⟩
  · intro subject text clsname tr
    cases tr with
    | ok =>
      refine ⟨_, rfl, ?_⟩
      intro e h
      cases h
    | raised e0 =>
      refine ⟨_, rfl, ?_⟩
      intro e h
      simp
  · intro cfg now m tr tr'
    by_cases h1 : m.category = Category.NullMsg
    · exact ⟨_, _, process_report_null cfg now m tr h1,
        process_report_null cfg now m tr' h1, rfl, rfl⟩
    by_cases h2 : m.category = Category.Unknown
    · exact ⟨_, _, process_report_unknown cfg now m tr h2,
        process_report_unknown cfg now m tr' h2, rfl, rfl⟩
    obtain ⟨mo, _, hpr⟩ := process_report_spec cfg now m tr h1 h2
    obtain ⟨mo', _, hpr'⟩ := process_report_spec cfg now m tr' h1 h2
    exact ⟨_, _, hpr, hpr', rfl, rfl⟩
  · intro cfg cache now m tr
    by_cases hf : cache.any (fun e => e.msg == m) = true
    · exact ⟨_, (dcr_report_handler_spec cfg cache now m tr).1 hf⟩
    · simp only [Bool.not_eq_true] at hf
      obtain ⟨r, _, hh⟩ := (dcr_report_handler_spec cfg cache now m tr).2 hf
      exact ⟨_, hh⟩

/-! ## Concrete fixtures used by the witnesses and counterexamples -/

/-- A blank keyword configuration (`''.split(',') == ['']`) with the
category enabled. -/
def cbBlank : CategoryConf := ⟨true, [[]]⟩

/-- A channel configured to report everything. -/
def chanAll : ChannelConf := ⟨true, true, true⟩

/-- A concrete configuration: every category enabled with a blank
keyword filter, 24-hour cache validity, training override on, all
channels on, header suppression on. -/
def cfg0 : Config :=
  ⟨cbBlank, cbBlank, cbBlank, cbBlank, cbBlank, cbBlank, cbBlank, cbBlank,
   cbBlank, true, true, true, true, true, true, true, 24, true, chanAll,
   true, chanAll, true, chanAll, true⟩

/-- `cfg0` with the weather category disabled (`Use=0`). -/
def cfgWOff : Config :=
  ⟨cbBlank, cbBlank, cbBlank, cbBlank, cbBlank, cbBlank, cbBlank, cbBlank,
   ⟨false, [[]]⟩, true, true, true, true, true, true, true, 24, true,
   chanAll, true, chanAll, true, chanAll, true⟩

/-- `cfg0` with a seismic-intensity keyword that matches no vocabulary
entry. -/
def cfgBad : Config :=
  ⟨cbBlank, cbBlank, cbBlank, cbBlank, cbBlank, ⟨true, [pys "Nonexistent"]⟩,
   cbBlank, cbBlank, cbBlank, true, true, true, true, true, true, true, 24,
   true, chanAll, true, chanAll, true, chanAll, true⟩

/-- A small vocabulary set containing only "Tokyo" in every table. -/
def voc0 : Vocabularies :=
  ⟨[pys "Tokyo"], [pys "Tokyo"], [pys "Tokyo"], [pys "Tokyo"],
   [pys "Tokyo"], [pys "Tokyo"], [pys "Tokyo"], [pys "Tokyo"]⟩

/-- A concrete Null message. -/
def msgNull : Message := ⟨Category.NullMsg, [], 0, 1, true, none, [], []⟩

/-- A concrete weather drill (`report_classification_no == 7`). -/
def msgWeather : Message :=
  ⟨Category.Weather, [pys "Tokyo"], 7, 1, true, none, pys "WT", pys "WH"⟩

/-- A concrete hypocenter report. -/
def msgHypoA : Message :=
  ⟨Category.Hypocenter, [], 0, 1, true, none, pys "A", []⟩

/-- A second concrete hypocenter report. -/
def msgHypoB : Message :=
  ⟨Category.Hypocenter, [], 0, 1, true, none, pys "B", []⟩

/-- A hypocenter report whose header occurs in the rendering but not as
a prefix, and which carries its own embedded timestamp. -/
def msgHypoC7 : Message :=
  ⟨Category.Hypocenter, [], 0, 1, true, some 5, pys "X HDR Y", pys "HDR"⟩

/-! ## Witnesses and counterexamples -/

/-- Witness for C3 at a concrete input: a fresh weather message at time
0 is cached and dispatched once; its second arrival at time 3600 within
the 24-hour window is not re-dispatched and the cache keeps exactly one
entry for it. -/
theorem dedup_idempotence_witness :
    ∃ c1 r,
      dcr_report_handler cfg0 [] 0 msgWeather TransportOutcome.ok =
        Except.ok ⟨c1, some r⟩ ∧
      c1.countP (fun e => e.msg == msgWeather) = 1 ∧
      dcr_report_handler cfg0 c1 3600 msgWeather TransportOutcome.ok =
        Except.ok ⟨remove_expired_cache cfg0 3600 c1, none⟩ ∧
      (remove_expired_cache cfg0 3600 c1).countP
        (fun e => e.msg == msgWeather) = 1 :=
  dedup_idempotence.2.2 cfg0 [] 0 3600 msgWeather TransportOutcome.ok
    TransportOutcome.ok (by decide) (by simp) (by decide)

/-- Witness for C4 at the spec's own example: with a 24-hour window and
entries at T-25h and T-23h (in seconds), eviction at T keeps only the
T-23h entry. -/
theorem eviction_boundary_witness :
    remove_expired_cache cfg0 0 [⟨-90000, msgHypoA⟩, ⟨-82800, msgHypoB⟩] =
      [⟨-82800, msgHypoB⟩] := by
  have h := (eviction_boundary cfg0 0
    [⟨-90000, msgHypoA⟩, ⟨-82800, msgHypoB⟩] (by decide)).1
  rw [h]
  decide

/-- Counterexample for C5 as stated: processing a new Null message does
append a cache entry — `dcr_report_handler` appends `(now, report)`
before `process_report` inspects the category, so the Null message
becomes a cache entry (while still being dispatched nowhere). -/
theorem null_message_cached_counterexample :
    dcr_report_handler cfg0 [] 0 msgNull TransportOutcome.ok =
      Except.ok ⟨[⟨0, msgNull⟩], some ProcessResult.ignoredNull⟩ ∧
    (⟨0, msgNull⟩ : CacheEntry) ∈ [(⟨0, msgNull⟩ : CacheEntry)] := by
  exact ⟨rfl, by simp⟩

/-- Witness for the amended C5 at a concrete input. -/
theorem null_message_suppressed_witness :
    process_report cfg0 0 msgNull TransportOutcome.ok =
        Except.ok ProcessResult.ignoredNull ∧
    (∀ res r, dcr_report_handler cfg0 [] 0 msgNull TransportOutcome.ok =
        Except.ok res →
      res.dispatched = some r →
      r = ProcessResult.ignoredNull ∧
        r.fileOut? = none ∧ r.stdOut? = none) ∧
    ((∀ e ∈ ([] : Cache), e.msg ≠ msgNull) →
      ∀ res, dcr_report_handler cfg0 [] 0 msgNull TransportOutcome.ok =
          Except.ok res →
        res.cache = remove_expired_cache cfg0 0 ([] ++ [⟨0, msgNull⟩]) ∧
        res.dispatched = some ProcessResult.ignoredNull) :=
  null_message_suppressed cfg0 [] 0 msgNull TransportOutcome.ok rfl

/-- Witness for C6 at a concrete input: a weather drill with the
category disabled (`Use=0`) and `IgnoreFilterWhenTraining=1` is
dispatched with `filtered = false` to all three channels. -/
theorem training_override_witness :
    ∃ mo, process_mail cfgWOff (report_dt 0 msgWeather) msgWeather false true
        (category_check cfgWOff msgWeather).2 TransportOutcome.ok =
          Except.ok mo ∧
      process_report cfgWOff 0 msgWeather TransportOutcome.ok = Except.ok
        (ProcessResult.dispatched (report_dt 0 msgWeather) false true
          (category_check cfgWOff msgWeather).2
          (process_report_file cfgWOff (report_dt 0 msgWeather) msgWeather
            false true (category_check cfgWOff msgWeather).2)
          mo
          (process_stdout cfgWOff (report_dt 0 msgWeather) msgWeather
            false true (category_check cfgWOff msgWeather).2)) :=
  training_override cfgWOff 0 msgWeather TransportOutcome.ok
    (by decide) (by decide) (by decide) rfl

/-- Counterexample for C7 as stated: for a message whose header occurs
in the rendering but not as a prefix, the code still removes the first
occurrence (the claim says the rendering is left unchanged), and the
appended line records the message's embedded timestamp 5 rather than
the delivery wall-clock time 100. -/
theorem mail_body_prefix_counterexample :
    msgHypoC7.header.isPrefixOf msgHypoC7.text = false ∧
    process_report cfg0 100 msgHypoC7 TransportOutcome.ok = Except.ok
      (ProcessResult.dispatched 5 false false false
        (some ⟨sep_line 5, msgHypoC7.text⟩)
        (some (⟨msgHypoC7.header, pys "X  Y" ++ mail_footer 5⟩,
          [LogLine.info
            (pys "Mail: QzssDcReportJmaHypocenter send success.")]))
        (some ⟨sep_line 5, msgHypoC7.text⟩)) ∧
    pys "X  Y" ++ mail_footer 5 ≠ msgHypoC7.text ++ mail_footer 100 := by
  refine ⟨by decide, rfl, by decide⟩

/-- Witness for the amended C7 at a concrete input. -/
theorem mail_body_construction_witness :
    ∃ logs,
      process_mail cfg0 5 msgHypoC7 false false false TransportOutcome.ok =
        Except.ok (some (⟨msgHypoC7.header,
          pyReplaceFirst msgHypoC7.text msgHypoC7.header []
            ++ mail_footer 5⟩, logs)) :=
  mail_body_construction.2.2.1 cfg0 5 msgHypoC7 false false false
    TransportOutcome.ok (by decide) rfl rfl (by decide) (by decide)
    (by decide)

/-- Witness for C8 at concrete inputs: an invalid seismic-intensity
keyword makes startup exit with status 2 reporting exactly that field,
and the all-blank configuration starts the pipeline. -/
theorem startup_validation_witness :
    startup_check cfgBad voc0 false =
      StartupResult.exited 2 [ConfField.seismicIntensityPrefectures] ∧
    startup_check cfg0 voc0 false = StartupResult.pipelineStarted := by
  constructor
  · have h := (startup_validation_fatal_exhaustive cfgBad voc0).2.2.1
      (by decide) false
    exact h.trans (by decide)
  · exact (startup_validation_fatal_exhaustive cfg0 voc0).2.2.2 (by decide)

/-- Witness for C9 at a concrete input: a raising transport still
returns `Except.ok` from `send_mail`, with the failure warning in the
log. -/
theorem mail_failure_isolation_witness :
    ∃ logs, send_mail (pys "S") (pys "B") (pys "C")
        (TransportOutcome.raised (pys "boom")) = Except.ok logs ∧
      ∀ e, TransportOutcome.raised (pys "boom") = TransportOutcome.raised e →
        LogLine.warning (pys "Mail: " ++ pys "C" ++ pys " send failed.")
          ∈ logs :=
  mail_failure_isolation.1 (pys "S") (pys "B") (pys "C")
    (TransportOutcome.raised (pys "boom"))

/-- Witness for C10 at a concrete input: an expired entry positioned
after an in-window head entry is retained. -/
theorem eviction_head_prefix_witness :
    remove_expired_cache cfg0 0 [⟨0, msgHypoA⟩, ⟨-90000, msgHypoB⟩] =
      [⟨0, msgHypoA⟩, ⟨-90000, msgHypoB⟩] :=
  eviction_truncates_head_prefix_only.2 cfg0 0 ⟨0, msgHypoA⟩
    [⟨-90000, msgHypoB⟩] (by decide)

end QzssDcrAgent
